import Mathlib

/-!
Verification of the crypto-bot decision core against its specification.

The Python source is shallowly embedded: pandas DataFrames become Lean
lists, floats become rationals (with an explicit marker for the IEEE
infinity produced by `x / 0` with `x > 0`, and `Option` for NaN cells of
rolling windows), and fallible calls return `Option`.
-/

/-- Trade side, column `side` of the trade log (`trade_logger.py`). -/
inductive Side
  | BUY
  | SELL
deriving DecidableEq, Repr

/-- One row of the trade-log CSV (`trade_logger.log_trade` writes exactly
these fields).  Timestamps are modelled as naturals: `log_trade` stores
wall-clock strings that `get_last_buy_for_symbol` re-parses with
`pd.to_datetime` and compares chronologically. -/
structure TradeRecord where
  timestamp : Nat
  order_id : String
  symbol : String
  side : Side
  price : ℚ
  quantity : ℚ
  cost : ℚ
  commission : ℚ
  pnl : ℚ
deriving DecidableEq, Repr

/-- `log_df[log_df['symbol'] == symbol]` in `get_last_buy_for_symbol`. -/
def symbolTrades (log : List TradeRecord) (sym : String) : List TradeRecord :=
  log.filter (fun r => r.symbol == sym)

/-- `symbol_df[symbol_df['side'] == 'BUY'].tail(1)` — the last BUY row of
the symbol-filtered log (`none` when the filtered frame is empty). -/
def lastBuy (log : List TradeRecord) (sym : String) : Option TradeRecord :=
  ((symbolTrades log sym).filter (fun r => r.side == Side.BUY)).getLast?

/-- `symbol_df[symbol_df['side'] == 'SELL'].tail(1)`. -/
def lastSell (log : List TradeRecord) (sym : String) : Option TradeRecord :=
  ((symbolTrades log sym).filter (fun r => r.side == Side.SELL)).getLast?

/-- `trade_logger.get_last_buy_for_symbol`: `None` when there is no BUY row,
or when the last SELL row's timestamp is strictly greater than the last BUY
row's; otherwise the last BUY row.  (An empty log yields `None` through the
no-BUY case, matching the early `if log_df.empty` return.) -/
def get_last_buy_for_symbol (log : List TradeRecord) (sym : String) :
    Option TradeRecord :=
  match lastBuy log sym, lastSell log sym with
  | none, _ => none
  | some b, some s => if b.timestamp < s.timestamp then none else some b
  | some b, none => some b

/-- The last element of a list sorted by a key bounds every element's key. -/
theorem getLast?_key_max {α : Type} (f : α → Nat) :
    ∀ {l : List α} {b : α},
      l.Pairwise (fun a c => f a ≤ f c) → l.getLast? = some b →
      b ∈ l ∧ ∀ x ∈ l, f x ≤ f b := by
  intro l
  induction l with
  | nil => intro b _ hb; simp at hb
  | cons a t ih =>
    intro b hp hb
    cases t with
    | nil =>
      simp [List.getLast?] at hb
      subst hb
      refine ⟨List.mem_singleton_self a, ?_⟩
      intro x hx
      simp at hx
      subst hx; exact le_refl _
    | cons c u =>
      rw [List.getLast?_cons_cons] at hb
      have hp' := List.pairwise_cons.mp hp
      obtain ⟨hmem, hmax⟩ := ih hp'.2 hb
      refine ⟨List.mem_cons_of_mem a hmem, ?_⟩
      intro x hx
      rcases List.mem_cons.mp hx with hxa | hxt
      · subst hxa; exact hp'.1 b hmem
      · exact hmax x hxt

/-- C1: For every ledger of time-ordered trade records and every symbol, the
position resolver returns CLOSED (`none`) when the symbol has no BUY record,
or when its most recent SELL is strictly after its most recent BUY; otherwise
it returns OPEN with that most recent BUY record (so in particular a SELL
whose timestamp equals the BUY's resolves to OPEN), and that record's
timestamp bounds every BUY of the symbol in the ledger. -/
theorem C1_position_resolver (log : List TradeRecord) (sym : String)
    (hsorted : log.Pairwise (fun a c => a.timestamp ≤ c.timestamp)) :
    ((∀ r ∈ log, r.symbol = sym → r.side ≠ Side.BUY) →
      get_last_buy_for_symbol log sym = none)
    ∧ (∀ b s, lastBuy log sym = some b → lastSell log sym = some s →
        b.timestamp < s.timestamp → get_last_buy_for_symbol log sym = none)
    ∧ (∀ b, lastBuy log sym = some b →
        (∀ s, lastSell log sym = some s → s.timestamp ≤ b.timestamp) →
        get_last_buy_for_symbol log sym = some b
        ∧ b.symbol = sym ∧ b.side = Side.BUY
        ∧ ∀ r ∈ log, r.symbol = sym → r.side = Side.BUY →
            r.timestamp ≤ b.timestamp) := by
  refine ⟨?_, ?_, ?_⟩
  · intro hno
    have hnil :
        (symbolTrades log sym).filter (fun r => r.side == Side.BUY) = [] := by
      rw [List.filter_eq_nil_iff]
      intro r hr
      have hr' := List.mem_filter.mp hr
      have hsym : r.symbol = sym := by
        have := hr'.2
        simpa using this
      have := hno r hr'.1 hsym
      simpa using this
    unfold get_last_buy_for_symbol
    rw [show lastBuy log sym = none by unfold lastBuy; rw [hnil]; rfl]
  · intro b s hb hs hlt
    unfold get_last_buy_for_symbol
    rw [hb, hs]
    simp [hlt]
  · intro b hb hsle
    have hbp := getLast?_key_max (fun r => r.timestamp)
      ((hsorted.filter _).filter _) hb
    have hbmem := hbp.1
    have hbmem' := List.mem_filter.mp hbmem
    have hbmem'' := List.mem_filter.mp hbmem'.1
    refine ⟨?_, ?_, ?_, ?_⟩
    · unfold get_last_buy_for_symbol
      rw [hb]
      cases hse : lastSell log sym with
      | none => rfl
      | some s =>
        have := hsle s hse
        simp [Nat.not_lt.mpr this]
    · simpa using hbmem''.2
    · simpa using hbmem'.2
    · intro r hr hrsym hrside
      have hrmem :
          r ∈ (symbolTrades log sym).filter (fun r => r.side == Side.BUY) := by
        refine List.mem_filter.mpr ⟨List.mem_filter.mpr ⟨hr, ?_⟩, ?_⟩
        · simp [hrsym]
        · simp [hrside]
      exact hbp.2 r hrmem

/-- A two-record demo ledger: a BUY and a SELL of the same symbol carrying
the identical timestamp 5 (the tie case of C1). -/
def demoBuyRec : TradeRecord :=
  ⟨5, "o1", "binance_BTCUSDT", Side.BUY, 100, 1, 100, 0, 0⟩

/-- The SELL leg of the tie-timestamp demo ledger. -/
def demoSellRec : TradeRecord :=
  ⟨5, "o2", "binance_BTCUSDT", Side.SELL, 101, 1, 101, 0, 1⟩

/-- C1 witness: on the tie-timestamp ledger the resolver yields OPEN with
the BUY record. -/
theorem C1_position_resolver_witness :
    get_last_buy_for_symbol [demoBuyRec, demoSellRec] "binance_BTCUSDT"
      = some demoBuyRec :=
  ((C1_position_resolver [demoBuyRec, demoSellRec] "binance_BTCUSDT"
      (by decide)).2.2 demoBuyRec (by decide)
      (fun s hs => by
        have he : lastSell [demoBuyRec, demoSellRec] "binance_BTCUSDT"
            = some demoSellRec := by decide
        rw [he] at hs
        have hss := Option.some.inj hs
        subst hss
        decide)).1

/-- Strategy parameters consumed by `strategy.py` (`config.STRATEGY_MODERATE`
and `config.STRATEGY_AGGRESSIVE` are instances; granularity is irrelevant to
the decision logic). -/
structure Params where
  short_sma : Nat
  long_sma : Nat
  rsi_period : Nat
  rsi_overbought : ℚ
deriving DecidableEq, Repr

/-- `df['close'].diff()`: per-step deltas, NaN (`none`) at index 0. -/
def deltaList (closes : List ℚ) : List (Option ℚ) :=
  match closes with
  | [] => []
  | _ :: t => none :: t.zipWith (fun a b => some (a - b)) closes

/-- `delta.where(delta > 0, 0)` applied to one cell: a NaN delta compares
false against 0 and is replaced by 0, exactly as pandas does at index 0. -/
def gainVal : Option ℚ → ℚ
  | some d => if 0 < d then d else 0
  | none => 0

/-- `(-delta.where(delta < 0, 0))` applied to one cell. -/
def lossVal : Option ℚ → ℚ
  | some d => if d < 0 then -d else 0
  | none => 0

/-- `series.rolling(window=w).mean()`: NaN (`none`) until a full window of
`w` values is available, then the window average. -/
def rollingMean (w : Nat) (xs : List ℚ) : List (Option ℚ) :=
  (List.range xs.length).map fun i =>
    if i + 1 < w then none
    else some (((xs.take (i + 1)).drop (i + 1 - w)).sum / (w : ℚ))

/-- The value set of the pandas expression `rs = gain / loss` at one cell:
a finite float, NaN (from `0/0` or a warming-up window), or the IEEE
infinity produced by `g/0` with `g > 0` (the gain column is nonnegative, so
the negative-infinity case cannot arise). -/
inductive RS
  | nan
  | inf
  | val (q : ℚ)
deriving DecidableEq, Repr

/-- One cell of `gain / loss` under IEEE semantics on the embedded values. -/
def divRS : Option ℚ → Option ℚ → RS
  | some g, some l =>
      if l = 0 then (if g = 0 then RS.nan else RS.inf) else RS.val (g / l)
  | _, _ => RS.nan

/-- `rs = rs.fillna(0)`: replaces NaN (and only NaN — not infinity) by 0. -/
def fillnaRS : RS → RS
  | RS.nan => RS.val 0
  | RS.inf => RS.inf
  | RS.val q => RS.val q

/-- One cell of `100 - (100 / (1 + rs))`: at `rs = +inf` the IEEE value is
`100 - 0 = 100`.  The NaN case is unreachable after `fillnaRS` and is kept
total at 0. -/
def rsiOfRS : RS → ℚ
  | RS.nan => 0
  | RS.inf => 100
  | RS.val q => 100 - 100 / (1 + q)

/-- Rolling mean of the gain column at index `i` (`none` out of range). -/
def gainMeanAt (closes : List ℚ) (p i : Nat) : Option ℚ :=
  (rollingMean p ((deltaList closes).map gainVal)).getD i none

/-- Rolling mean of the loss column at index `i`. -/
def lossMeanAt (closes : List ℚ) (p i : Nat) : Option ℚ :=
  (rollingMean p ((deltaList closes).map lossVal)).getD i none

/-- The `rs` column after `fillna(0)`, at index `i`. -/
def rsAt (closes : List ℚ) (p i : Nat) : RS :=
  fillnaRS (divRS (gainMeanAt closes p i) (lossMeanAt closes p i))

/-- The `RSI_{p}` column at index `i`. -/
def rsiAt (closes : List ℚ) (p i : Nat) : ℚ :=
  rsiOfRS (rsAt closes p i)

/-- The `SMA_{w}` column at index `i`. -/
def smaAt (w : Nat) (closes : List ℚ) (i : Nat) : Option ℚ :=
  (rollingMean w closes).getD i none

/-- One row of the DataFrame produced by `strategy.calculate_indicators`:
the close plus the three indicator columns.  (In the typed embedding the
columns always exist, so `generate_signal`'s dynamic check that the column
names are present in `df.columns` is vacuous and not modelled.) -/
structure SigRow where
  close : ℚ
  smaS : Option ℚ
  smaL : Option ℚ
  rsi : ℚ
deriving DecidableEq, Repr

/-- `strategy.calculate_indicators`: adds `SMA_short`, `SMA_long` and
`RSI_period` columns to the close series. -/
def calculate_indicators (closes : List ℚ) (p : Params) : List SigRow :=
  (List.range closes.length).map fun i =>
    { close := closes.getD i 0
      smaS := smaAt p.short_sma closes i
      smaL := smaAt p.long_sma closes i
      rsi := rsiAt closes p.rsi_period i }

/-- `a <= b` on float cells: any comparison against NaN is false. -/
def leNan : Option ℚ → Option ℚ → Bool
  | some a, some b => decide (a ≤ b)
  | _, _ => false

/-- `a >= b` on float cells. -/
def geNan : Option ℚ → Option ℚ → Bool
  | some a, some b => decide (b ≤ a)
  | _, _ => false

/-- `a < b` on float cells. -/
def ltNan : Option ℚ → Option ℚ → Bool
  | some a, some b => decide (a < b)
  | _, _ => false

/-- `a > b` on float cells. -/
def gtNan : Option ℚ → Option ℚ → Bool
  | some a, some b => decide (b < a)
  | _, _ => false

/-- The signal value returned by `strategy.generate_signal`. -/
inductive Sig
  | BUY
  | SELL
  | HOLD
deriving DecidableEq, Repr

/-- The reason strings of `strategy.generate_signal`, as symbolic values:
"Golden Cross + RSI Confirmation", "Aggressive Sell: RSI Overbought (…)",
"Death Cross", "No signal", "Not enough data", "Indicators still
calculating". -/
inductive Reason
  | GoldenCross
  | OverboughtExit
  | DeathCross
  | NoSignal
  | NotEnoughData
  | IndicatorsCalculating
deriving DecidableEq, Repr

/-- `strategy.generate_signal`.  `none` models the uncaught `IndexError`
that `df.iloc[-2]` raises when the length guard passed but the frame has
fewer than two rows (only possible when `long_sma < 2`). -/
def generate_signal (df : List SigRow) (p : Params) : Option (Sig × Reason) :=
  if df.length < p.long_sma then some (Sig.HOLD, Reason.NotEnoughData)
  else
    match df.getLast?, df.dropLast.getLast? with
    | some lastRow, some prevRow =>
      if lastRow.smaS.isNone || lastRow.smaL.isNone then
        some (Sig.HOLD, Reason.IndicatorsCalculating)
      else
        let sma_cross_over :=
          leNan prevRow.smaS prevRow.smaL && gtNan lastRow.smaS lastRow.smaL
        let rsi_confirm_buy := decide (lastRow.rsi < p.rsi_overbought)
        if sma_cross_over && rsi_confirm_buy then
          some (Sig.BUY, Reason.GoldenCross)
        else
          let sma_cross_under :=
            geNan prevRow.smaS prevRow.smaL && ltNan lastRow.smaS lastRow.smaL
          let rsi_is_overbought := decide (p.rsi_overbought < lastRow.rsi)
          if rsi_is_overbought then some (Sig.SELL, Reason.OverboughtExit)
          else if sma_cross_under then some (Sig.SELL, Reason.DeathCross)
          else some (Sig.HOLD, Reason.NoSignal)
    | _, _ => none

/-- C2: whenever the bearish crossunder (short average moving from at least
the long average to strictly below it) and the overbought condition hold on
the same step, `generate_signal` reports SELL with the overbought-exit
reason, not the bearish-crossover reason: the overbought rule is evaluated
first. -/
theorem C2_overbought_priority (df : List SigRow) (p : Params)
    (lastRow prevRow : SigRow)
    (hlen : p.long_sma ≤ df.length)
    (hlast : df.getLast? = some lastRow)
    (hprev : df.dropLast.getLast? = some prevRow)
    (_hunder : geNan prevRow.smaS prevRow.smaL = true)
    (hunder' : ltNan lastRow.smaS lastRow.smaL = true)
    (hob : p.rsi_overbought < lastRow.rsi) :
    generate_signal df p = some (Sig.SELL, Reason.OverboughtExit) := by
  obtain ⟨a, ha⟩ : ∃ a, lastRow.smaS = some a := by
    cases hS : lastRow.smaS with
    | none => rw [hS] at hunder'; cases hunder'
    | some a => exact ⟨a, rfl⟩
  obtain ⟨b, hbb⟩ : ∃ b, lastRow.smaL = some b := by
    cases hL : lastRow.smaL with
    | none => rw [hL] at hunder'; simp [ltNan] at hunder'
    | some b => exact ⟨b, rfl⟩
  have hab : a < b := by
    rw [ha, hbb] at hunder'
    simpa [ltNan] using hunder'
  have hgt : gtNan lastRow.smaS lastRow.smaL = false := by
    rw [ha, hbb]
    simp [gtNan, le_of_lt hab]
  simp only [generate_signal, Nat.not_lt.mpr hlen, if_false, hlast, hprev]
  simp [ha, hbb, hgt, hob]
  intro _ _
  exact le_of_lt hob

/-- Closes used for the C2 witness: old level 198–200, a drop to 196, then
a rebound to 203, giving a crossunder of SMA(2) below SMA(3) at the last
bar while RSI(2) = 700/11 ≈ 63.6 exceeds an overbought threshold of 60. -/
def sellCloses : List ℚ := [198, 198, 200, 196, 203]

/-- Profile used for the C2 witness. -/
def pTight : Params := ⟨2, 3, 2, 60⟩

set_option maxRecDepth 100000 in
/-- C2 witness: the concrete crossunder-and-overbought step yields SELL
with the overbought-exit reason. -/
theorem C2_overbought_priority_witness :
    generate_signal (calculate_indicators sellCloses pTight) pTight
      = some (Sig.SELL, Reason.OverboughtExit) :=
  C2_overbought_priority (calculate_indicators sellCloses pTight) pTight
    ⟨203, some (399/2), some (599/3), 700/11⟩
    ⟨196, some 198, some 198, 100/3⟩
    (by decide) (by with_unfolding_all decide) (by with_unfolding_all decide)
    (by with_unfolding_all decide) (by with_unfolding_all decide)
    (by with_unfolding_all decide)

/-- Index lemma for `rollingMean` at an in-range position. -/
theorem rollingMean_getD (w : Nat) (xs : List ℚ) (i : Nat) (hi : i < xs.length) :
    (rollingMean w xs).getD i none =
      if i + 1 < w then none
      else some (((xs.take (i + 1)).drop (i + 1 - w)).sum / (w : ℚ)) := by
  unfold rollingMean
  rw [List.getD_eq_getElem?_getD, List.getElem?_map, List.getElem?_range hi]
  rfl

/-- Out of range, `rollingMean` cells read back as NaN. -/
theorem rollingMean_getD_of_le (w : Nat) (xs : List ℚ) (i : Nat)
    (hi : xs.length ≤ i) : (rollingMean w xs).getD i none = none := by
  unfold rollingMean
  rw [List.getD_eq_getElem?_getD, List.getElem?_eq_none]
  · rfl
  · simpa using hi

/-- Every defined cell of a rolling mean over a nonnegative series is
nonnegative. -/
theorem rollingMean_nonneg {xs : List ℚ} (hxs : ∀ x ∈ xs, 0 ≤ x)
    {w i : Nat} {m : ℚ} (h : (rollingMean w xs).getD i none = some m) :
    0 ≤ m := by
  by_cases hi : i < xs.length
  · rw [rollingMean_getD w xs i hi] at h
    by_cases hw : i + 1 < w
    · rw [if_pos hw] at h; cases h
    · rw [if_neg hw] at h
      obtain rfl : ((xs.take (i + 1)).drop (i + 1 - w)).sum / (w : ℚ) = m :=
        Option.some.inj h
      apply div_nonneg _ (by positivity)
      apply List.sum_nonneg
      intro x hx
      exact hxs x (List.mem_of_mem_take (List.mem_of_mem_drop hx))
  · rw [rollingMean_getD_of_le w xs i (Nat.le_of_not_lt hi)] at h
    cases h

/-- The gain column is pointwise nonnegative. -/
theorem gainVal_nonneg (d : Option ℚ) : 0 ≤ gainVal d := by
  cases d with
  | none => simp [gainVal]
  | some x =>
    simp only [gainVal]
    split
    · linarith
    · exact le_refl 0

/-- The loss column is pointwise nonnegative. -/
theorem lossVal_nonneg (d : Option ℚ) : 0 ≤ lossVal d := by
  cases d with
  | none => simp [lossVal]
  | some x =>
    simp only [lossVal]
    split
    · linarith
    · exact le_refl 0

/-- After `fillna(0)`, each `rs` cell is either the IEEE infinity or a
nonnegative rational. -/
theorem rsAt_cases (closes : List ℚ) (p i : Nat) :
    rsAt closes p i = RS.inf ∨
      ∃ q, rsAt closes p i = RS.val q ∧ 0 ≤ q := by
  unfold rsAt
  cases hg : gainMeanAt closes p i with
  | none =>
    cases hl : lossMeanAt closes p i with
    | none => exact Or.inr ⟨0, rfl, le_refl 0⟩
    | some l => exact Or.inr ⟨0, rfl, le_refl 0⟩
  | some g =>
    have hg0 : 0 ≤ g := by
      refine rollingMean_nonneg ?_ hg
      intro x hx
      obtain ⟨d, _, rfl⟩ := List.mem_map.mp hx
      exact gainVal_nonneg d
    cases hl : lossMeanAt closes p i with
    | none => exact Or.inr ⟨0, rfl, le_refl 0⟩
    | some l =>
      have hl0 : 0 ≤ l := by
        refine rollingMean_nonneg ?_ hl
        intro x hx
        obtain ⟨d, _, rfl⟩ := List.mem_map.mp hx
        exact lossVal_nonneg d
      by_cases hlz : l = 0
      · by_cases hgz : g = 0
        · exact Or.inr ⟨0, by simp [divRS, hlz, hgz, fillnaRS], le_refl 0⟩
        · exact Or.inl (by simp [divRS, hlz, hgz, fillnaRS])
      · exact Or.inr ⟨g / l, by simp [divRS, hlz, fillnaRS],
          div_nonneg hg0 hl0⟩

/-- C3 counterexample: on the strictly rising closes `[1, 2, 3]` with
period 2 the rolling loss-mean at the last bar is zero, yet the
`fillna(0)` call only replaces NaN, so the ratio is the IEEE infinity
produced by `gain/0` — not 0 as the claim states — and the oscillator
evaluates to 100, not to the low end. -/
theorem C3_counterexample :
    lossMeanAt [1, 2, 3] 2 2 = some 0
    ∧ rsAt [1, 2, 3] 2 2 ≠ RS.val 0
    ∧ rsAt [1, 2, 3] 2 2 = RS.inf
    ∧ rsiAt [1, 2, 3] 2 2 = 100 := by
  with_unfolding_all decide

/-- C3 amended: the ratio is defined as 0 only when the loss-mean is zero
with the gain-mean also zero (the NaN case that `fillna(0)` replaces);
when the loss-mean is zero and the gain-mean positive the ratio is the
IEEE infinity and the oscillator evaluates to 100; in all cases the
oscillator lies in [0, 100]. -/
theorem C3_oscillator_amended (closes : List ℚ) (p i : Nat) :
    (gainMeanAt closes p i = some 0 → lossMeanAt closes p i = some 0 →
      rsAt closes p i = RS.val 0)
    ∧ (∀ g, gainMeanAt closes p i = some g → 0 < g →
        lossMeanAt closes p i = some 0 →
        rsAt closes p i = RS.inf ∧ rsiAt closes p i = 100)
    ∧ (0 ≤ rsiAt closes p i ∧ rsiAt closes p i ≤ 100) := by
  refine ⟨?_, ?_, ?_⟩
  · intro hg hl
    unfold rsAt
    rw [hg, hl]
    simp [divRS, fillnaRS]
  · intro g hg hgpos hl
    have hr : rsAt closes p i = RS.inf := by
      unfold rsAt
      rw [hg, hl]
      simp [divRS, fillnaRS, ne_of_gt hgpos]
    exact ⟨hr, by simp [rsiAt, hr, rsiOfRS]⟩
  · rcases rsAt_cases closes p i with hr | ⟨q, hr, hq⟩
    · simp [rsiAt, hr, rsiOfRS]
    · have h1 : (0:ℚ) < 1 + q := by linarith
      constructor
      · simp only [rsiAt, hr, rsiOfRS]
        have : 100 / (1 + q) ≤ 100 := by
          apply div_le_self (by norm_num)
          linarith
        linarith
      · simp only [rsiAt, hr, rsiOfRS]
        have : 0 < 100 / (1 + q) := div_pos (by norm_num) h1
        linarith

set_option maxRecDepth 100000 in
/-- C3 witness: a flat window gives ratio 0 through the NaN fill; a
losses-free window with positive gains gives the infinity case and
oscillator 100; and the oscillator value at the counterexample bar indeed
lies in [0, 100]. -/
theorem C3_oscillator_amended_witness :
    rsAt [5, 5, 5] 2 2 = RS.val 0
    ∧ (rsAt [1, 2, 3] 2 1 = RS.inf ∧ rsiAt [1, 2, 3] 2 1 = 100)
    ∧ (0 ≤ rsiAt [1, 2, 3] 2 2 ∧ rsiAt [1, 2, 3] 2 2 ≤ 100) :=
  ⟨(C3_oscillator_amended [5, 5, 5] 2 2).1
      (by with_unfolding_all decide) (by with_unfolding_all decide),
   (C3_oscillator_amended [1, 2, 3] 2 1).2.1 (1/2)
      (by with_unfolding_all decide) (by norm_num)
      (by with_unfolding_all decide),
   (C3_oscillator_amended [1, 2, 3] 2 2).2.2⟩

/-- C8: `generate_signal` never fails on short or warming-up input: any
series with fewer rows than the long window yields HOLD with the
insufficient-history reason regardless of price shape; for any profile
whose long window is at least 2 the function always returns a value; and
when a current-step SMA cell is still NaN it yields HOLD with the
warming-up reason. -/
theorem C8_hold_on_short_or_warming (df : List SigRow) (p : Params) :
    (df.length < p.long_sma →
      generate_signal df p = some (Sig.HOLD, Reason.NotEnoughData))
    ∧ (2 ≤ p.long_sma → (generate_signal df p).isSome = true)
    ∧ (∀ lastRow, 2 ≤ p.long_sma → p.long_sma ≤ df.length →
        df.getLast? = some lastRow →
        (lastRow.smaS = none ∨ lastRow.smaL = none) →
        generate_signal df p = some (Sig.HOLD, Reason.IndicatorsCalculating))
    := by
  have hprevrow : 2 ≤ df.length →
      ∃ prevRow, df.dropLast.getLast? = some prevRow := by
    intro h2
    have hne : df.dropLast ≠ [] := by
      intro hnil
      have := congrArg List.length hnil
      rw [List.length_dropLast] at this
      simp at this
      omega
    obtain ⟨prevRow, hp⟩ := Option.isSome_iff_exists.mp
      (List.getLast?_isSome.mpr hne)
    exact ⟨prevRow, hp⟩
  refine ⟨?_, ?_, ?_⟩
  · intro hlt
    simp [generate_signal, hlt]
  · intro h2
    by_cases hlt : df.length < p.long_sma
    · simp [generate_signal, hlt]
    · have hlen : p.long_sma ≤ df.length := Nat.le_of_not_lt hlt
      have hne : df ≠ [] := by
        intro hnil
        rw [hnil] at hlen
        simp at hlen
        omega
      obtain ⟨lastRow, hl⟩ := Option.isSome_iff_exists.mp
        (List.getLast?_isSome.mpr hne)
      obtain ⟨prevRow, hp⟩ := hprevrow (le_trans h2 hlen)
      simp only [generate_signal, if_neg hlt, hl, hp]
      split
      · rfl
      · split
        · rfl
        · split
          · rfl
          · split <;> rfl
  · intro lastRow h2 hlen hl hna
    obtain ⟨prevRow, hp⟩ := hprevrow (le_trans h2 hlen)
    simp only [generate_signal, if_neg (Nat.not_lt.mpr hlen), hl, hp]
    rcases hna with hna | hna <;> simp [hna]

/-- Profile with a short window longer than the long window is not needed
for the C8 witness; this one (short 3, long 2) makes the last-bar short
SMA still NaN at the minimal admissible frame length. -/
def pWarm : Params := ⟨3, 2, 2, 60⟩

set_option maxRecDepth 100000 in
/-- C8 witness: a 2-bar frame under the moderate-style profile (long
window 3) yields the insufficient-history HOLD, and a frame whose last
short-SMA cell is still NaN yields the warming-up HOLD. -/
theorem C8_hold_on_short_or_warming_witness :
    generate_signal (calculate_indicators [1, 2] pTight) pTight
      = some (Sig.HOLD, Reason.NotEnoughData)
    ∧ generate_signal (calculate_indicators [1, 2] pWarm) pWarm
      = some (Sig.HOLD, Reason.IndicatorsCalculating) :=
  ⟨(C8_hold_on_short_or_warming (calculate_indicators [1, 2] pTight)
      pTight).1 (by with_unfolding_all decide),
   (C8_hold_on_short_or_warming (calculate_indicators [1, 2] pWarm)
      pWarm).2.2 ⟨2, smaAt pWarm.short_sma [1, 2] 1,
        smaAt pWarm.long_sma [1, 2] 1, rsiAt [1, 2] pWarm.rsi_period 1⟩
      (by decide) (by with_unfolding_all decide)
      (by with_unfolding_all decide)
      (Or.inl (by with_unfolding_all decide))⟩

/-- `config.MARKET_CRASH_THRESHOLD_PERCENT`. -/
def MARKET_CRASH_THRESHOLD_PERCENT : ℚ := -10

/-- `risk_manager.check_market_crash` over the close column, with the
configured threshold as a parameter: `False` on frames shorter than two
rows, `False` when the previous close is zero (the divide-by-zero guard),
otherwise true exactly when the percent change of the last close against
the previous one is below the threshold. -/
def check_market_crash (closes : List ℚ) (thr : ℚ) : Bool :=
  if closes.length < 2 then false
  else
    match closes.getLast?, closes.dropLast.getLast? with
    | some last_close, some prev_close =>
      if prev_close = 0 then false
      else decide ((last_close - prev_close) / prev_close * 100 < thr)
    | _, _ => false

/-- C4 counterexample: on closes `[100, 0]` the previous close is 100 (not
zero, so the guard does not apply), the percent change is −100, and with
threshold −10 the code flags a crash — the claim's "no-crash" expectation
for this input is wrong. -/
theorem C4_crash_counterexample :
    check_market_crash [100, 0] (-10) = true := by
  with_unfolding_all decide

/-- C4 amended: with at least two closes, a crash is flagged exactly when
the previous close is nonzero and the percent change `(last-prev)/prev*100`
is below the threshold; a zero previous close reports no crash rather than
faulting.  Concretely: closes `[100, 100]` give no-crash, closes `[0, 100]`
give no-crash via the zero-division guard, closes `[100, 0]` give crash
(a −100% drop), and closes `[100, 85]` with threshold −10 give crash. -/
theorem C4_crash_check_amended (closes : List ℚ) (thr lastC prevC : ℚ)
    (h2 : 2 ≤ closes.length)
    (hlast : closes.getLast? = some lastC)
    (hprev : closes.dropLast.getLast? = some prevC) :
    (check_market_crash closes thr = true ↔
      (prevC ≠ 0 ∧ (lastC - prevC) / prevC * 100 < thr))
    ∧ (prevC = 0 → check_market_crash closes thr = false)
    ∧ (check_market_crash [100, 100] (-10) = false
       ∧ check_market_crash [0, 100] (-10) = false
       ∧ check_market_crash [100, 0] (-10) = true
       ∧ check_market_crash [100, 85] (-10) = true) := by
  have hred : check_market_crash closes thr =
      if prevC = 0 then false
      else decide ((lastC - prevC) / prevC * 100 < thr) := by
    unfold check_market_crash
    rw [if_neg (Nat.not_lt.mpr h2), hlast, hprev]
  refine ⟨?_, ?_, ?_⟩
  · rw [hred]
    by_cases hz : prevC = 0
    · simp [hz]
    · simp [hz]
  · intro hz
    rw [hred, if_pos hz]
  · refine ⟨?_, ?_, ?_, ?_⟩ <;> with_unfolding_all decide

set_option maxRecDepth 100000 in
/-- C4 witness: on closes `[100, 85]` with threshold −10 the amended
characterization yields crash = true (percent change −15 is below −10). -/
theorem C4_crash_check_amended_witness :
    check_market_crash [100, 85] (-10) = true :=
  ((C4_crash_check_amended [100, 85] (-10) 85 100 (by decide)
      (by with_unfolding_all decide) (by with_unfolding_all decide)).1).mpr
    ⟨by norm_num, by norm_num⟩

/-- The observable steps of `TradingBot.process_symbol`, one constructor
per statement of the source, in source order: the BTC-canary failsafe,
the kline fetch, `calculate_indicators`, the ledger read that resolves the
position (`get_last_buy_for_symbol`), `check_market_crash`,
`generate_signal`, and the two execution calls.  `err` marks the uncaught
exception path of `generate_signal`. -/
inductive Step
  | canaryCheck
  | fetch
  | indicators
  | resolvePosition
  | crashCheck
  | signal
  | execBuy
  | execSell
  | err
deriving DecidableEq, Repr

/-- `TradingBot.process_symbol` as the trace of steps it performs.  The
inputs stand for the collaborator responses: `isBTC` for
`exchange == 'binance' and 'BTC' in product_id`, `canaryOK` for the result
of `check_binance_btc_balance`, `portfolioSafe` for the cycle-level
portfolio check, `closes` for the fetched close series (`none` when the
kline fetch failed and `process_raw_klines` returned `None`), and `lastB`
for the ledger row returned by `get_last_buy_for_symbol`.  A failed canary
returns before anything else; a `None` or empty frame returns after the
indicator stage; a detected crash returns before `generate_signal`; the
buy branch requires signal BUY, a closed position and a safe portfolio,
the sell branch requires signal SELL and an open position. -/
def process_symbol (isBTC canaryOK portfolioSafe : Bool)
    (closes : Option (List ℚ)) (lastB : Option TradeRecord) (p : Params) :
    List Step :=
  if isBTC && !canaryOK then [Step.canaryCheck]
  else
    let pre := (if isBTC then [Step.canaryCheck] else []) ++ [Step.fetch]
    match closes with
    | none => pre
    | some cs =>
      if cs.isEmpty then pre ++ [Step.indicators]
      else
        let base := pre ++
          [Step.indicators, Step.resolvePosition, Step.crashCheck]
        if check_market_crash cs MARKET_CRASH_THRESHOLD_PERCENT then base
        else
          match generate_signal (calculate_indicators cs p) p with
          | none => base ++ [Step.signal, Step.err]
          | some (sig, _) =>
            let withSig := base ++ [Step.signal]
            if sig == Sig.BUY && lastB.isNone && portfolioSafe then
              withSig ++ [Step.execBuy]
            else if sig == Sig.SELL && lastB.isSome then
              withSig ++ [Step.execSell]
            else withSig

set_option maxRecDepth 1000000 in
/-- C5 counterexample: a symbol whose frame produces a SELL signal and
whose ledger position is OPEN, but for which the BTC-canary check failed,
is abandoned at the failsafe — the sell path is never reached, so a
SELL/exit decision IS blocked by a risk check, contrary to the claim. -/
theorem C5_counterexample :
    generate_signal (calculate_indicators sellCloses pTight) pTight
      = some (Sig.SELL, Reason.OverboughtExit)
    ∧ (some demoBuyRec : Option TradeRecord).isSome = true
    ∧ Step.execSell ∉
        process_symbol true false true (some sellCloses)
          (some demoBuyRec) pTight := by
  with_unfolding_all decide

/-- C5 amended: only the portfolio check is advisory for BUY suppression
alone.  When the signal is SELL and the position is OPEN, the sell path
executes regardless of the portfolio check's outcome — provided the
per-symbol gates did not already abandon the symbol: the canary check (for
BTC symbols) passed and the crash check did not fire. -/
theorem C5_sell_not_blocked_amended (isBTC canaryOK portfolioSafe : Bool)
    (cs : List ℚ) (lastB : Option TradeRecord) (p : Params) (r : Reason)
    (hcanary : isBTC = true → canaryOK = true)
    (hcrash : check_market_crash cs MARKET_CRASH_THRESHOLD_PERCENT = false)
    (hsig : generate_signal (calculate_indicators cs p) p
      = some (Sig.SELL, r))
    (hopen : lastB.isSome = true) :
    Step.execSell ∈
      process_symbol isBTC canaryOK portfolioSafe (some cs) lastB p := by
  have hne : cs.isEmpty = false := by
    cases hcs : cs with
    | nil =>
      rw [hcs] at hsig
      by_cases hl : (0:Nat) < p.long_sma
      · simp [generate_signal, calculate_indicators, hl] at hsig
      · simp [generate_signal, calculate_indicators, Nat.not_lt.mp hl,
          Nat.le_zero.mp (Nat.not_lt.mp hl)] at hsig
    | cons a t => rfl
  have hnotbtc : (isBTC && !canaryOK) = false := by
    cases isBTC with
    | false => rfl
    | true => rw [hcanary rfl]; rfl
  have hopen' : lastB.isNone = false := by
    cases lastB with
    | none => cases hopen
    | some b => rfl
  simp only [process_symbol, hnotbtc, Bool.false_eq_true, if_false, hne,
    hcrash, hsig]
  simp [hopen, hopen']

set_option maxRecDepth 1000000 in
/-- C5 witness: with the canary passing, no crash, an unsafe portfolio
(portfolio check failed) and an OPEN ledger position, the SELL signal
still reaches the sell execution. -/
theorem C5_sell_not_blocked_amended_witness :
    Step.execSell ∈
      process_symbol false true false (some sellCloses)
        (some demoBuyRec) pTight :=
  C5_sell_not_blocked_amended false true false sellCloses
    (some demoBuyRec) pTight Reason.OverboughtExit
    (fun h => by cases h)
    (by with_unfolding_all decide)
    (by with_unfolding_all decide)
    rfl

/-- C6: the buy execution is reached only when the signal is BUY, the
ledger-resolved position is CLOSED and the portfolio check passed; the
sell execution is reached only when the signal is SELL and the resolved
position is OPEN — so a BUY is never issued into an open position and a
SELL never without one, giving at most one open position per symbol by
construction. -/
theorem C6_execution_guards (isBTC canaryOK portfolioSafe : Bool)
    (closes : Option (List ℚ)) (lastB : Option TradeRecord) (p : Params) :
    (Step.execBuy ∈
        process_symbol isBTC canaryOK portfolioSafe closes lastB p →
      ∃ cs r, closes = some cs
        ∧ generate_signal (calculate_indicators cs p) p = some (Sig.BUY, r)
        ∧ lastB = none ∧ portfolioSafe = true)
    ∧ (Step.execSell ∈
        process_symbol isBTC canaryOK portfolioSafe closes lastB p →
      ∃ cs r b, closes = some cs
        ∧ generate_signal (calculate_indicators cs p) p = some (Sig.SELL, r)
        ∧ lastB = some b) := by
  by_cases hbtc : (isBTC && !canaryOK) = true
  · constructor <;>
      · intro hmem
        simp only [process_symbol, if_pos hbtc] at hmem
        simp at hmem
  · cases closes with
    | none =>
      constructor <;>
        · intro hmem
          simp only [process_symbol, if_neg hbtc] at hmem
          cases isBTC <;> simp at hmem
    | some cs =>
      by_cases hemp : cs.isEmpty = true
      · constructor <;>
          · intro hmem
            simp only [process_symbol, if_neg hbtc, if_pos hemp] at hmem
            cases isBTC <;> simp at hmem
      · by_cases hcr :
          check_market_crash cs MARKET_CRASH_THRESHOLD_PERCENT = true
        · constructor <;>
            · intro hmem
              simp only [process_symbol, if_neg hbtc, if_neg hemp,
                if_pos hcr] at hmem
              cases isBTC <;> simp at hmem
        · cases hgen : generate_signal (calculate_indicators cs p) p with
          | none =>
            constructor <;>
              · intro hmem
                simp only [process_symbol, if_neg hbtc, if_neg hemp,
                  if_neg hcr, hgen] at hmem
                cases isBTC <;> simp at hmem
          | some sr =>
            obtain ⟨sig, r⟩ := sr
            by_cases hbuy :
                (sig == Sig.BUY && lastB.isNone && portfolioSafe) = true
            · have h1 := (Bool.and_eq_true _ _).mp hbuy
              have h2 := (Bool.and_eq_true _ _).mp h1.1
              have hsig : sig = Sig.BUY := beq_iff_eq.mp h2.1
              have hcl : lastB = none := Option.isNone_iff_eq_none.mp h2.2
              constructor
              · intro _
                exact ⟨cs, r, rfl, hsig ▸ hgen, hcl, h1.2⟩
              · intro hmem
                simp only [process_symbol, if_neg hbtc, if_neg hemp,
                  if_neg hcr, hgen, if_pos hbuy] at hmem
                cases isBTC <;> simp at hmem
            · by_cases hsell : (sig == Sig.SELL && lastB.isSome) = true
              · have h1 := (Bool.and_eq_true _ _).mp hsell
                have hsig : sig = Sig.SELL := beq_iff_eq.mp h1.1
                obtain ⟨b, hbb⟩ := Option.isSome_iff_exists.mp h1.2
                constructor
                · intro hmem
                  simp only [process_symbol, if_neg hbtc, if_neg hemp,
                    if_neg hcr, hgen, if_neg hbuy, if_pos hsell] at hmem
                  cases isBTC <;> simp at hmem
                · intro _
                  exact ⟨cs, r, b, rfl, hsig ▸ hgen, hbb⟩
              · constructor <;>
                  · intro hmem
                    simp only [process_symbol, if_neg hbtc, if_neg hemp,
                      if_neg hcr, hgen, if_neg hbuy, if_neg hsell] at hmem
                    cases isBTC <;> simp at hmem

/-- Close series driving the C6 witness to the buy branch: flat, a dip,
then a jump, so SMA(2) crosses above SMA(3) at the last bar with RSI(2)
= 250/3 below the 90 threshold. -/
def buyCloses : List ℚ := [10, 10, 10, 9, 14]

/-- Profile used for the C6 witness. -/
def pBuy : Params := ⟨2, 3, 2, 90⟩

set_option maxRecDepth 1000000 in
/-- C6 witness: a trace that did reach the buy execution indeed came with
a BUY signal, a CLOSED position and a passed portfolio check. -/
theorem C6_execution_guards_witness :
    ∃ cs r, (some buyCloses : Option (List ℚ)) = some cs
      ∧ generate_signal (calculate_indicators cs pBuy) pBuy
          = some (Sig.BUY, r)
      ∧ (none : Option TradeRecord) = none ∧ true = true :=
  (C6_execution_guards false true true (some buyCloses) none pBuy).1
    (by with_unfolding_all decide)

/-- Close series whose last step is a 50% drop, firing the crash check. -/
def crashCloses : List ℚ := [100, 100, 100, 100, 50]

set_option maxRecDepth 1000000 in
/-- C7 counterexample: on a crashing symbol the recorded trace ends at the
crash check but STILL contains the indicator computation and the ledger
position resolution before it — the source runs `calculate_indicators`
(step 2) and `get_last_buy_for_symbol` (step 3) before `check_market_crash`
(step 4), so the crash check neither skips position resolution nor runs
before indicator work as the claim states. -/
theorem C7_counterexample :
    check_market_crash crashCloses MARKET_CRASH_THRESHOLD_PERCENT = true
    ∧ process_symbol false true true (some crashCloses) none pTight
        = [Step.fetch, Step.indicators, Step.resolvePosition,
           Step.crashCheck]
    ∧ Step.resolvePosition ∈
        process_symbol false true true (some crashCloses) none pTight := by
  with_unfolding_all decide

/-- C7 amended: when the crash check fires (and the canary, which does run
first, passed), the symbol's cycle short-circuits to a no-op that skips
signal generation and both execution paths — but indicator computation and
ledger position resolution have already run at that point, because the
source orders them before the crash check. -/
theorem C7_crash_skip_amended (isBTC canaryOK portfolioSafe : Bool)
    (cs : List ℚ) (lastB : Option TradeRecord) (p : Params)
    (hcanary : isBTC = true → canaryOK = true)
    (hne : cs.isEmpty = false)
    (hcrash : check_market_crash cs MARKET_CRASH_THRESHOLD_PERCENT = true) :
    process_symbol isBTC canaryOK portfolioSafe (some cs) lastB p =
      (if isBTC then [Step.canaryCheck] else []) ++
        [Step.fetch, Step.indicators, Step.resolvePosition, Step.crashCheck]
    ∧ Step.signal ∉
        process_symbol isBTC canaryOK portfolioSafe (some cs) lastB p
    ∧ Step.execBuy ∉
        process_symbol isBTC canaryOK portfolioSafe (some cs) lastB p
    ∧ Step.execSell ∉
        process_symbol isBTC canaryOK portfolioSafe (some cs) lastB p := by
  have hnotbtc : (isBTC && !canaryOK) = false := by
    cases isBTC with
    | false => rfl
    | true => rw [hcanary rfl]; rfl
  have htrace : process_symbol isBTC canaryOK portfolioSafe (some cs)
      lastB p =
      (if isBTC then [Step.canaryCheck] else []) ++
        [Step.fetch, Step.indicators, Step.resolvePosition,
         Step.crashCheck] := by
    simp only [process_symbol, hnotbtc, Bool.false_eq_true, if_false, hne,
      hcrash]
    simp
  refine ⟨htrace, ?_, ?_, ?_⟩ <;>
    · rw [htrace]
      cases isBTC <;> simp

set_option maxRecDepth 1000000 in
/-- C7 witness: the amended short-circuit shape at the concrete crashing
series, with the canary applicable (a BTC symbol) and passing. -/
theorem C7_crash_skip_amended_witness :
    process_symbol true true true (some crashCloses) none pTight =
      [Step.canaryCheck, Step.fetch, Step.indicators, Step.resolvePosition,
       Step.crashCheck] :=
  (C7_crash_skip_amended true true true crashCloses none pTight
    (fun _ => rfl) rfl (by with_unfolding_all decide)).1

/-- One entry of the `fills` array of a Binance order response. -/
structure Fill where
  qty : ℚ
  price : ℚ
  commission : ℚ
deriving DecidableEq, Repr

/-- The order response consumed by `_parse_order_response` (orderId plus
fills; a response without fills is rejected there). -/
structure OrderResponse where
  orderId : String
  fills : List Fill
deriving DecidableEq, Repr

/-- The standardized dict returned by `_parse_order_response`. -/
structure OrderDetails where
  order_id : String
  price : ℚ
  quantity : ℚ
  cost : ℚ
  commission : ℚ
deriving DecidableEq, Repr

/-- `BinanceClient._parse_order_response`: `None` on an absent/empty fills
array, otherwise the fill totals with the quantity-weighted average price
(0 when the total quantity is not positive). -/
def parse_order_response (resp : OrderResponse) : Option OrderDetails :=
  if resp.fills.isEmpty then none
  else
    let total_quantity := (resp.fills.map (fun f => f.qty)).sum
    let total_cost := (resp.fills.map (fun f => f.qty * f.price)).sum
    let avg_price := if 0 < total_quantity then total_cost / total_quantity
      else 0
    let total_commission := (resp.fills.map (fun f => f.commission)).sum
    some ⟨resp.orderId, avg_price, total_quantity, total_cost,
      total_commission⟩

/-- The per-symbol exchange filters loaded by `_load_symbol_info`. -/
structure SymbolFilters where
  tick_size : ℚ
  step_size : ℚ
deriving DecidableEq, Repr

/-- `BinanceClient._round_quantity_to_step`: floor to the step grid.  (The
Python wraps the product in `round(·, 8)` purely to strip binary
floating-point representation noise; over exact rationals the floor-times-
step value is the intended result.) -/
def round_quantity_to_step (f : SymbolFilters) (quantity : ℚ) : ℚ :=
  (⌊quantity / f.step_size⌋ : ℤ) * f.step_size

/-- `BinanceClient._round_price_to_tick`: floor to the tick grid. -/
def round_price_to_tick (f : SymbolFilters) (price : ℚ) : ℚ :=
  (⌊price / f.tick_size⌋ : ℤ) * f.tick_size

/-- `BinanceClient.place_limit_order` with the collaborator responses as
inputs: `info` is the loaded symbol filter entry (`none` when the symbol
is missing from `symbol_info`), `resp` the exchange's `create_order`
outcome (`none` when the call raised and was caught).  A quantity that
rounds to zero (or below) at the step size aborts before any order is
sent. -/
def place_limit_order (info : Option SymbolFilters)
    (resp : Option OrderResponse) (quantity price : ℚ) :
    Option OrderDetails :=
  match info with
  | none => none
  | some f =>
    let rounded_quantity := round_quantity_to_step f quantity
    if rounded_quantity ≤ 0 then none
    else
      let _rounded_price := round_price_to_tick f price
      match resp with
      | none => none
      | some r => parse_order_response r

/-- `config.TRADE_AMOUNT_USDT`. -/
def TRADE_AMOUNT_USDT : ℚ := 15

/-- `config.LIMIT_ORDER_OFFSET`. -/
def LIMIT_ORDER_OFFSET : ℚ := 1/10000

/-- `TradingBot.execute_buy` acting on the ledger: `price` is the
`get_current_price` result (`if not price` also catches a literal 0.0),
and the successful path appends exactly the BUY record that `log_trade`
writes (pnl 0, `ts` standing for the wall-clock write time).  An order
response whose `order_id` is falsy (empty) is not logged. -/
def execute_buy (ledger : List TradeRecord) (sym : String) (ts : Nat)
    (price : Option ℚ) (info : Option SymbolFilters)
    (resp : Option OrderResponse) : List TradeRecord :=
  match price with
  | none => ledger
  | some pr =>
    if pr = 0 then ledger
    else
      let quantity := TRADE_AMOUNT_USDT / pr
      let limit_price := pr * (1 - LIMIT_ORDER_OFFSET)
      match place_limit_order info resp quantity limit_price with
      | none => ledger
      | some od =>
        if od.order_id = "" then ledger
        else
          ledger ++ [⟨ts, od.order_id, sym, Side.BUY, od.price, od.quantity,
            od.cost, od.commission, 0⟩]

/-- `TradingBot.execute_sell`: the order is placed for the full available
base-asset `balance` (not the BUY record's quantity); nothing happens on a
nonpositive balance or an unavailable/zero price; a success appends the
SELL record with `quantity=balance` and `pnl = sell cost − last_buy.cost`. -/
def execute_sell (ledger : List TradeRecord) (sym : String) (ts : Nat)
    (balance : ℚ) (price : Option ℚ) (info : Option SymbolFilters)
    (resp : Option OrderResponse) (last_buy : TradeRecord) :
    List TradeRecord :=
  if 0 < balance then
    match price with
    | none => ledger
    | some pr =>
      if pr = 0 then ledger
      else
        let limit_price := pr * (1 + LIMIT_ORDER_OFFSET)
        match place_limit_order info resp balance limit_price with
        | none => ledger
        | some od =>
          if od.order_id = "" then ledger
          else
            ledger ++ [⟨ts, od.order_id, sym, Side.SELL, od.price, balance,
              od.cost, od.commission, od.cost - last_buy.cost⟩]
  else ledger

/-- In every per-symbol trace, each execution step occurs at most once:
a failed or skipped order is not retried within the cycle. -/
theorem process_symbol_exec_count (isBTC canaryOK portfolioSafe : Bool)
    (closes : Option (List ℚ)) (lastB : Option TradeRecord) (p : Params) :
    (process_symbol isBTC canaryOK portfolioSafe closes lastB p).count
        Step.execBuy ≤ 1
    ∧ (process_symbol isBTC canaryOK portfolioSafe closes lastB p).count
        Step.execSell ≤ 1 := by
  by_cases hbtc : (isBTC && !canaryOK) = true
  · simp only [process_symbol, if_pos hbtc]
    constructor <;> decide
  · cases closes with
    | none =>
      simp only [process_symbol, if_neg hbtc]
      cases isBTC <;> constructor <;> decide
    | some cs =>
      by_cases hemp : cs.isEmpty = true
      · simp only [process_symbol, if_neg hbtc, if_pos hemp]
        cases isBTC <;> constructor <;> decide
      · by_cases hcr :
          check_market_crash cs MARKET_CRASH_THRESHOLD_PERCENT = true
        · simp only [process_symbol, if_neg hbtc, if_neg hemp, if_pos hcr]
          cases isBTC <;> constructor <;> decide
        · cases hgen : generate_signal (calculate_indicators cs p) p with
          | none =>
            simp only [process_symbol, if_neg hbtc, if_neg hemp,
              if_neg hcr, hgen]
            cases isBTC <;> constructor <;> decide
          | some sr =>
            obtain ⟨sig, r⟩ := sr
            by_cases hbuy :
                (sig == Sig.BUY && lastB.isNone && portfolioSafe) = true
            · simp only [process_symbol, if_neg hbtc, if_neg hemp,
                if_neg hcr, hgen, if_pos hbuy]
              cases isBTC <;> constructor <;> decide
            · by_cases hsell : (sig == Sig.SELL && lastB.isSome) = true
              · simp only [process_symbol, if_neg hbtc, if_neg hemp,
                  if_neg hcr, hgen, if_neg hbuy, if_pos hsell]
                cases isBTC <;> constructor <;> decide
              · simp only [process_symbol, if_neg hbtc, if_neg hemp,
                  if_neg hcr, hgen, if_neg hbuy, if_neg hsell]
                cases isBTC <;> constructor <;> decide

/-- C9: a buy execution either leaves the ledger untouched or appends
exactly one BUY record (and the derived position state changes only
through that append); every failure mode — unavailable or zero price,
missing symbol info, a quantity rounding to zero at the step size, an
exchange rejection, an empty fills array reflected as a parse failure —
appends nothing; a success appends exactly the one record built from the
parsed order; and within a cycle's per-symbol trace each execution step
occurs at most once (no retry). -/
theorem C9_order_failure_semantics
    (ledger : List TradeRecord) (sym : String) (ts : Nat)
    (price : Option ℚ) (info : Option SymbolFilters)
    (resp : Option OrderResponse) :
    (execute_buy ledger sym ts price info resp = ledger
      ∨ ∃ rec, execute_buy ledger sym ts price info resp = ledger ++ [rec]
          ∧ rec.side = Side.BUY ∧ rec.symbol = sym)
    ∧ (price = none → execute_buy ledger sym ts price info resp = ledger)
    ∧ (price = some 0 → execute_buy ledger sym ts price info resp = ledger)
    ∧ (info = none → execute_buy ledger sym ts price info resp = ledger)
    ∧ (resp = none → execute_buy ledger sym ts price info resp = ledger)
    ∧ (∀ pr f, price = some pr → ¬ pr = 0 → info = some f →
        round_quantity_to_step f (TRADE_AMOUNT_USDT / pr) ≤ 0 →
        execute_buy ledger sym ts price info resp = ledger)
    ∧ (∀ pr f rp od, price = some pr → ¬ pr = 0 → info = some f →
        ¬ round_quantity_to_step f (TRADE_AMOUNT_USDT / pr) ≤ 0 →
        resp = some rp → parse_order_response rp = some od →
        ¬ od.order_id = "" →
        execute_buy ledger sym ts price info resp = ledger ++
          [⟨ts, od.order_id, sym, Side.BUY, od.price, od.quantity, od.cost,
            od.commission, 0⟩])
    ∧ (∀ isBTC canaryOK portfolioSafe closes lastB p,
        (process_symbol isBTC canaryOK portfolioSafe closes lastB p).count
            Step.execBuy ≤ 1
        ∧ (process_symbol isBTC canaryOK portfolioSafe closes lastB
            p).count Step.execSell ≤ 1) := by
  refine ⟨?_, ?_, ?_, ?_, ?_, ?_, ?_, ?_⟩
  · cases price with
    | none => exact Or.inl rfl
    | some pr =>
      by_cases hz : pr = 0
      · exact Or.inl (by simp [execute_buy, hz])
      · cases hpl : place_limit_order info resp (TRADE_AMOUNT_USDT / pr)
            (pr * (1 - LIMIT_ORDER_OFFSET)) with
        | none => exact Or.inl (by simp [execute_buy, hz, hpl])
        | some od =>
          by_cases hid : od.order_id = ""
          · exact Or.inl (by simp [execute_buy, hz, hpl, hid])
          · exact Or.inr ⟨⟨ts, od.order_id, sym, Side.BUY, od.price,
              od.quantity, od.cost, od.commission, 0⟩,
              by simp [execute_buy, hz, hpl, hid], rfl, rfl⟩
  · intro h; rw [h]; rfl
  · intro h; rw [h]; simp [execute_buy]
  · intro h
    cases price with
    | none => rfl
    | some pr =>
      by_cases hz : pr = 0
      · simp [execute_buy, hz]
      · simp [execute_buy, hz, h, place_limit_order]
  · intro h
    cases price with
    | none => rfl
    | some pr =>
      by_cases hz : pr = 0
      · simp [execute_buy, hz]
      · cases info with
        | none => simp [execute_buy, hz, place_limit_order]
        | some f =>
          by_cases hq :
              round_quantity_to_step f (TRADE_AMOUNT_USDT / pr) ≤ 0
          · simp [execute_buy, hz, place_limit_order, hq]
          · simp [execute_buy, hz, place_limit_order, hq, h]
  · intro pr f hpr hz hinfo hq
    subst hpr; subst hinfo
    simp [execute_buy, hz, place_limit_order, hq]
  · intro pr f rp od hpr hz hinfo hq hresp hparse hid
    subst hpr; subst hinfo; subst hresp
    simp [execute_buy, hz, place_limit_order, hq, hparse, hid]
  · intro isBTC canaryOK portfolioSafe closes lastB p
    exact process_symbol_exec_count isBTC canaryOK portfolioSafe closes
      lastB p

/-- Symbol filters used by the execution witnesses: tick 0.01, step
0.001. -/
def demoFilters : SymbolFilters := ⟨1/100, 1/1000⟩

/-- Exchange response used by the C9 witness: one fill of 0.15 at 100. -/
def demoBuyResp : OrderResponse := ⟨"ord1", [⟨3/20, 100, 0⟩]⟩

set_option maxRecDepth 100000 in
/-- C9 witness: a successful buy at price 100 (quantity 15/100 = 0.15,
surviving step rounding) appends exactly the one parsed BUY record. -/
theorem C9_order_failure_semantics_witness :
    execute_buy [] "binance_ETHUSDT" 7 (some 100) (some demoFilters)
        (some demoBuyResp)
      = [⟨7, "ord1", "binance_ETHUSDT", Side.BUY, 100, 3/20, 15, 0, 0⟩] :=
  (C9_order_failure_semantics [] "binance_ETHUSDT" 7 (some 100)
      (some demoFilters) (some demoBuyResp)).2.2.2.2.2.2.1
    100 demoFilters demoBuyResp ⟨"ord1", 100, 3/20, 15, 0⟩ rfl
    (by norm_num) rfl (by with_unfolding_all decide) rfl
    (by with_unfolding_all decide) (by decide)

/-- C10: the sell path submits the full available base-asset balance (its
outcome is invariant under changes to the BUY record's recorded quantity),
does nothing when the balance is nonpositive or the price unavailable (or
zero), and on success appends one SELL record whose quantity is the
balance and whose pnl is the sell proceeds minus the originating BUY
record's cost. -/
theorem C10_execute_sell_semantics
    (ledger : List TradeRecord) (sym : String) (ts : Nat) (balance : ℚ)
    (price : Option ℚ) (info : Option SymbolFilters)
    (resp : Option OrderResponse) (last_buy : TradeRecord) :
    (¬ 0 < balance →
      execute_sell ledger sym ts balance price info resp last_buy = ledger)
    ∧ (price = none →
      execute_sell ledger sym ts balance price info resp last_buy = ledger)
    ∧ (price = some 0 →
      execute_sell ledger sym ts balance price info resp last_buy = ledger)
    ∧ (∀ q, execute_sell ledger sym ts balance price info resp last_buy
        = execute_sell ledger sym ts balance price info resp
            { last_buy with quantity := q })
    ∧ (∀ pr od, 0 < balance → price = some pr → ¬ pr = 0 →
        place_limit_order info resp balance (pr * (1 + LIMIT_ORDER_OFFSET))
          = some od →
        ¬ od.order_id = "" →
        execute_sell ledger sym ts balance price info resp last_buy
          = ledger ++ [⟨ts, od.order_id, sym, Side.SELL, od.price, balance,
              od.cost, od.commission, od.cost - last_buy.cost⟩]) := by
  refine ⟨?_, ?_, ?_, ?_, ?_⟩
  · intro h; simp [execute_sell, h]
  · intro h
    by_cases hb : 0 < balance
    · simp [execute_sell, hb, h]
    · simp [execute_sell, hb]
  · intro h
    by_cases hb : 0 < balance
    · simp [execute_sell, hb, h]
    · simp [execute_sell, hb]
  · intro q
    by_cases hb : 0 < balance
    · cases price with
      | none => simp [execute_sell, hb]
      | some pr =>
        by_cases hz : pr = 0
        · simp [execute_sell, hb, hz]
        · cases hpl : place_limit_order info resp balance
              (pr * (1 + LIMIT_ORDER_OFFSET)) with
          | none => simp [execute_sell, hb, hz, hpl]
          | some od =>
            by_cases hid : od.order_id = ""
            · simp [execute_sell, hb, hz, hpl, hid]
            · simp [execute_sell, hb, hz, hpl, hid]
    · simp [execute_sell, hb]
  · intro pr od hb hpr hz hpl hid
    subst hpr
    simp [execute_sell, hb, hz, hpl, hid]

/-- Exchange response used by the C10 witness: one fill of 0.5 at 100. -/
def demoSellResp : OrderResponse := ⟨"ord2", [⟨1/2, 100, 0⟩]⟩

set_option maxRecDepth 100000 in
/-- C10 witness: selling a full balance of 0.5 at price 100 against the
BUY record of cost 100 appends one SELL record with quantity 0.5, cost 50
and pnl −50. -/
theorem C10_execute_sell_semantics_witness :
    execute_sell [demoBuyRec] "binance_BTCUSDT" 9 (1/2) (some 100)
        (some demoFilters) (some demoSellResp) demoBuyRec
      = [demoBuyRec, ⟨9, "ord2", "binance_BTCUSDT", Side.SELL, 100, 1/2,
          50, 0, -50⟩] := by
  have h := (C10_execute_sell_semantics [demoBuyRec] "binance_BTCUSDT" 9
      (1/2) (some 100) (some demoFilters) (some demoSellResp)
      demoBuyRec).2.2.2.2 100 ⟨"ord2", 100, 1/2, 50, 0⟩
    (by norm_num) rfl (by norm_num) (by with_unfolding_all decide)
    (by decide)
  rw [h]
  with_unfolding_all decide
